import Mathlib

/-!
Verification of the autonomous-CTO agent repository: a shallow embedding of
the GitHub/Notion tool operations (`src/mastra/tools/githubTools.ts`,
`src/mastra/tools/notionTools.ts`, `src/mastra/tools/developmentTools.ts`)
and of the task-discovery workflow step
(`src/mastra/workflows/ctoAutomationWorkflow.ts`), together with theorems
about the claimed properties.

External services (the GitHub and Notion HTTP APIs) are modelled as records
of response functions; each embedded operation returns the list of API calls
it issued (its trace) next to its structured result, so that call-ordering
claims can be stated.  JavaScript truthiness on optional strings is modelled
explicitly (`jsTruthy`); `catch` blocks around a tool body are modelled by
matching on an `Except` value.
-/



/-- Truthiness of a JS value that is either a string or absent: `undefined`
and `""` are falsy, every other string is truthy. -/
def jsTruthy : Option String → Bool
  | some s => s ≠ ""
  | none => false

/-- JS `a || b` on two optional strings: yields `a` when truthy, else `b`. -/
def jsOrStr (a b : Option String) : Option String :=
  if jsTruthy a then a else b

/-! ## GitHub API model -/

/-- One file in a `commitCode` request (`files` array entry). -/
structure CommitFile where
  path : String
  content : String
  encoding : String
deriving DecidableEq

/-- A tree entry sent to the tree-create endpoint: the code builds
`{path, sha, mode: "100644", type: "blob"}` for each created blob. -/
structure TreeEntry where
  path : String
  sha : String
  mode : String
  entryType : String
deriving DecidableEq

/-- A raw item of a repository-contents response (`github.rest.repos.getContent`).
`size` is an optional number in the response schema. -/
structure RawItem where
  name : String
  path : String
  itemType : String
  size : Option Nat
  sha : String
deriving DecidableEq

/-- A repository-contents response: either a directory listing (an array)
or a single file object, whose `content` field (base64) may be present. -/
inductive ContentResp where
  | dir (items : List RawItem)
  | file (item : RawItem) (content : Option String)
deriving DecidableEq

/-- `Array.isArray(response.data) ? response.data : [response.data]`. -/
def ContentResp.items : ContentResp → List RawItem
  | .dir is => is
  | .file i _ => [i]

/-- The `content` field of a response, when the response is a file object
(`'content' in fileResponse.data`). -/
def ContentResp.contentField : ContentResp → Option String
  | .dir _ => none
  | .file _ c => c

/-- One call issued against the GitHub API. -/
inductive GhCall where
  | getRef (ref : String)
  | getCommit (commitSha : String)
  | createBlob (content : String) (encoding : String)
  | createTree (baseTree : String) (entries : List TreeEntry)
  | createCommit (message : String) (tree : String) (parents : List String)
  | updateRef (ref : String) (sha : String)
  | pullsCreate (title head base body : String) (draft : Bool)
  | requestReviewers (pullNumber : Nat) (reviewers : List String)
  | reposGetContent (path : String)
  | listBranches
deriving DecidableEq

/-- The GitHub host, as the tool code observes it: a deterministic response
for every endpoint (`Except.error` models a rejected request, which the
TypeScript code observes as a thrown exception). -/
structure GitHubHost where
  getRefRes : String → Except String String
  getCommitRes : String → Except String String
  createBlobRes : String → String → Except String String
  createTreeRes : String → List TreeEntry → Except String String
  createCommitRes : String → String → List String → Except String String
  updateRefRes : String → String → Except String Unit
  pullsCreateRes : String → String → String → String → Bool → Except String (Nat × String)
  requestReviewersRes : Nat → List String → Except String Unit
  reposGetContentRes : String → Except String ContentResp

/-! ## commitCode (commitCodeTool, githubTools.ts lines 111-224) -/

/-- Output schema of `commitCodeTool`. -/
structure CommitResult where
  success : Bool
  commitSha : Option String
  message : String
deriving DecidableEq

/-- The blob-creation fan-out
(`Promise.all(files.map(file => createBlob(...)))`): one tree entry per file
when every blob creation succeeds, the first error otherwise.  The calls
themselves are all issued regardless (see `commitCode`). -/
def blobEntries (host : GitHubHost) (files : List CommitFile) :
    Except String (List TreeEntry) :=
  files.mapM fun f =>
    (host.createBlobRes f.content f.encoding).map fun sha =>
      { path := f.path, sha := sha, mode := "100644", entryType := "blob" }

/-- The blob-create calls issued by the fan-out, in file order. -/
def blobCalls (files : List CommitFile) : List GhCall :=
  files.map fun f => GhCall.createBlob f.content f.encoding

/-- `commitCodeTool.execute`: read the branch head ref, read its commit to
get the base tree, create one blob per file, create a tree over the base
tree, create a commit whose sole parent is the head read at the start, and
finally update the branch ref to the new commit.  Any failure is caught and
converted into a `success: false` result.  Returns the issued call trace
next to the result. -/
def commitCode (host : GitHubHost) (branch message : String)
    (files : List CommitFile) : List GhCall × CommitResult :=
  match host.getRefRes ("heads/" ++ branch) with
  | .error e =>
      ([GhCall.getRef ("heads/" ++ branch)],
       { success := false, commitSha := none,
         message := "Failed to commit code: " ++ e })
  | .ok headSha =>
    match host.getCommitRes headSha with
    | .error e =>
        ([GhCall.getRef ("heads/" ++ branch), GhCall.getCommit headSha],
         { success := false, commitSha := none,
           message := "Failed to commit code: " ++ e })
    | .ok baseTreeSha =>
      let pre := [GhCall.getRef ("heads/" ++ branch), GhCall.getCommit headSha]
        ++ blobCalls files
      match blobEntries host files with
      | .error e =>
          (pre, { success := false, commitSha := none,
                  message := "Failed to commit code: " ++ e })
      | .ok entries =>
        match host.createTreeRes baseTreeSha entries with
        | .error e =>
            (pre ++ [GhCall.createTree baseTreeSha entries],
             { success := false, commitSha := none,
               message := "Failed to commit code: " ++ e })
        | .ok treeSha =>
          match host.createCommitRes message treeSha [headSha] with
          | .error e =>
              (pre ++ [GhCall.createTree baseTreeSha entries,
                       GhCall.createCommit message treeSha [headSha]],
               { success := false, commitSha := none,
                 message := "Failed to commit code: " ++ e })
          | .ok newSha =>
            match host.updateRefRes ("heads/" ++ branch) newSha with
            | .error e =>
                (pre ++ [GhCall.createTree baseTreeSha entries,
                         GhCall.createCommit message treeSha [headSha],
                         GhCall.updateRef ("heads/" ++ branch) newSha],
                 { success := false, commitSha := none,
                   message := "Failed to commit code: " ++ e })
            | .ok _ =>
                (pre ++ [GhCall.createTree baseTreeSha entries,
                         GhCall.createCommit message treeSha [headSha],
                         GhCall.updateRef ("heads/" ++ branch) newSha],
                 { success := true, commitSha := some newSha,
                   message := "Successfully committed " ++ toString files.length
                     ++ " files to branch \"" ++ branch ++ "\"" })

/-- A fully healthy GitHub host used to exercise `commitCode_trace`. -/
def hostC1 : GitHubHost where
  getRefRes := fun _ => .ok "headsha"
  getCommitRes := fun _ => .ok "basetree"
  createBlobRes := fun _ _ => .ok "blobsha"
  createTreeRes := fun _ _ => .ok "treesha"
  createCommitRes := fun _ _ _ => .ok "newsha"
  updateRefRes := fun _ _ => .ok ()
  pullsCreateRes := fun _ _ _ _ _ => .ok (1, "url")
  requestReviewersRes := fun _ _ => .ok ()
  reposGetContentRes := fun _ => .error "not used"

/-- The two files committed in the `commitCode_trace` witness. -/
def filesC1 : List CommitFile :=
  [{ path := "a.txt", content := "hello", encoding := "utf-8" },
   { path := "b.bin", content := "aGk=", encoding := "base64" }]

/-! ## createPullRequest (createPullRequestTool, githubTools.ts lines 226-305) -/

/-- Output schema of `createPullRequestTool`. -/
structure PrResult where
  success : Bool
  pullRequestUrl : Option String
  pullRequestNumber : Option Nat
  message : String
deriving DecidableEq

/-- The PR body built by the tool: the given body, an optional Related Task
section (only when `notionTaskUrl` is truthy), and the fixed review
checklist. -/
def prBodyFull (body : String) (notionTaskUrl : Option String) : String :=
  (if jsTruthy notionTaskUrl then
     body ++ "\n\n## Related Task\n- Original Notion Task: "
       ++ notionTaskUrl.getD ""
   else body)
  ++ "\n\n## Review Checklist\n- [ ] Code follows ZenQuill coding standards\n- [ ] Tests have been added/updated\n- [ ] Documentation has been updated\n- [ ] No breaking changes introduced\n- [ ] Security considerations addressed"

/-- `createPullRequestTool.execute`: create the pull request, then — only
when a non-empty reviewer list was given — request reviewers on the created
PR number.  Any failure (of either call) is caught and converted into a
`success: false` result.  Returns the issued call trace next to the
result. -/
def createPullRequest (host : GitHubHost) (title head base body : String)
    (notionTaskUrl : Option String) (reviewers : Option (List String))
    (draft : Bool) : List GhCall × PrResult :=
  let prBody := prBodyFull body notionTaskUrl
  match host.pullsCreateRes title head base prBody draft with
  | .error e =>
      ([GhCall.pullsCreate title head base prBody draft],
       { success := false, pullRequestUrl := none, pullRequestNumber := none,
         message := "Failed to create pull request: " ++ e })
  | .ok (num, url) =>
    match reviewers with
    | some rs =>
      if rs.length > 0 then
        match host.requestReviewersRes num rs with
        | .error e =>
            ([GhCall.pullsCreate title head base prBody draft,
              GhCall.requestReviewers num rs],
             { success := false, pullRequestUrl := none,
               pullRequestNumber := none,
               message := "Failed to create pull request: " ++ e })
        | .ok _ =>
            ([GhCall.pullsCreate title head base prBody draft,
              GhCall.requestReviewers num rs],
             { success := true, pullRequestUrl := some url,
               pullRequestNumber := some num,
               message := "Pull request #" ++ toString num
                 ++ " created successfully" })
      else
        ([GhCall.pullsCreate title head base prBody draft],
         { success := true, pullRequestUrl := some url,
           pullRequestNumber := some num,
           message := "Pull request #" ++ toString num
             ++ " created successfully" })
    | none =>
        ([GhCall.pullsCreate title head base prBody draft],
         { success := true, pullRequestUrl := some url,
           pullRequestNumber := some num,
           message := "Pull request #" ++ toString num
             ++ " created successfully" })

/-- A host whose PR creation succeeds with number 7 but whose
reviewer-request endpoint fails, exercising the partial-failure clause. -/
def hostC2 : GitHubHost where
  getRefRes := fun _ => .error "not used"
  getCommitRes := fun _ => .error "not used"
  createBlobRes := fun _ _ => .error "not used"
  createTreeRes := fun _ _ => .error "not used"
  createCommitRes := fun _ _ _ => .error "not used"
  updateRefRes := fun _ _ => .error "not used"
  pullsCreateRes := fun _ _ _ _ _ => .ok (7, "https://example.test/pr/7")
  requestReviewersRes := fun _ _ => .error "reviewer request rejected"
  reposGetContentRes := fun _ => .error "not used"

/-! ## getRepositoryContent (getRepositoryContentTool, githubTools.ts lines 307-402) -/

/-- Value of one base64 alphabet character; `none` for padding and any
other character (which `Buffer.from(..., 'base64')` skips). -/
def b64Val (c : Char) : Option Nat :=
  if 'A' ≤ c ∧ c ≤ 'Z' then some (c.toNat - 65)
  else if 'a' ≤ c ∧ c ≤ 'z' then some (c.toNat - 71)
  else if '0' ≤ c ∧ c ≤ '9' then some (c.toNat + 4)
  else if c = '+' then some 62
  else if c = '/' then some 63
  else none

/-- Base64 sextet groups to bytes: four sextets give three bytes, a final
group of two or three sextets gives one or two bytes. -/
def b64Bytes : List Nat → List Nat
  | a :: b :: c :: d :: rest =>
      (a * 4 + b / 16) :: ((b % 16) * 16 + c / 4) :: ((c % 4) * 64 + d)
        :: b64Bytes rest
  | [a, b] => [a * 4 + b / 16]
  | [a, b, c] => [a * 4 + b / 16, (b % 16) * 16 + c / 4]
  | _ => []

/-- `Buffer.from(content, 'base64').toString('utf-8')`: decode the base64
payload to bytes, then interpret the bytes as UTF-8 (an invalid byte
sequence yields `""` here, where Node would substitute replacement
characters; no claim depends on the decoded text). -/
def decodeBase64Utf8 (s : String) : String :=
  (String.fromUTF8?
    ⟨⟨(b64Bytes (s.toList.filterMap b64Val)).map (fun n => UInt8.ofNat n)⟩⟩).getD ""

/-- `item.size && item.size < 100000`: JS truthiness makes a missing or
zero size fail the guard. -/
def sizeFetchable : Option Nat → Bool
  | some n => n ≠ 0 && n < 100000
  | none => false

/-- An item of the tool's output: the raw listing fields plus an optional
decoded `content`. -/
structure RepoItem where
  name : String
  path : String
  itemType : String
  size : Option Nat
  content : Option String
  sha : String
deriving DecidableEq

/-- Output schema of `getRepositoryContentTool`. -/
structure RepoContentResult where
  success : Bool
  items : List RepoItem
  message : String
deriving DecidableEq

/-- The content obtained by the per-file fetch: the `content` field of the
second `getContent` response when present and truthy, decoded from base64;
`none` when the field is absent, empty, or the fetch failed (the `catch`
around the per-file fetch swallows the error). -/
def fetchedContent (host : GitHubHost) (i : RawItem) : Option String :=
  match host.reposGetContentRes i.path with
  | .ok resp =>
    match resp.contentField with
    | some c => if c ≠ "" then some (decodeBase64Utf8 c) else none
    | none => none
  | .error _ => none

/-- The per-item processing of `getRepositoryContentTool`: for a file whose
size passes the truthy `size < 100000` guard, issue one content fetch and
attach the decoded content; otherwise return the base item without a
fetch. -/
def processItem (host : GitHubHost) (i : RawItem) : List GhCall × RepoItem :=
  if i.itemType == "file" && sizeFetchable i.size then
    ([GhCall.reposGetContent i.path],
     { name := i.name, path := i.path, itemType := i.itemType, size := i.size,
       content := fetchedContent host i, sha := i.sha })
  else
    ([], { name := i.name, path := i.path, itemType := i.itemType,
           size := i.size, content := none, sha := i.sha })

/-- `getRepositoryContentTool.execute`: list the path, process each item
(fetching small file contents), and return all items; a failure of the
top-level call is caught and converted into a `success: false` result.
Returns the issued call trace next to the result. -/
def getRepositoryContent (host : GitHubHost) (path : String) :
    List GhCall × RepoContentResult :=
  match host.reposGetContentRes path with
  | .error e =>
      ([GhCall.reposGetContent path],
       { success := false, items := [],
         message := "Failed to get repository content: " ++ e })
  | .ok resp =>
    let processed := resp.items.map (processItem host)
    (GhCall.reposGetContent path :: (processed.map Prod.fst).flatten,
     { success := true, items := processed.map Prod.snd,
       message := "Retrieved " ++ toString (processed.map Prod.snd).length
         ++ " items from " ++ (if path = "" then "root" else path) })

/-- A host whose root listing contains a single zero-byte file; every other
request fails. -/
def hostC4ce : GitHubHost where
  getRefRes := fun _ => .error "not used"
  getCommitRes := fun _ => .error "not used"
  createBlobRes := fun _ _ => .error "not used"
  createTreeRes := fun _ _ => .error "not used"
  createCommitRes := fun _ _ _ => .error "not used"
  updateRefRes := fun _ _ => .error "not used"
  pullsCreateRes := fun _ _ _ _ _ => .error "not used"
  requestReviewersRes := fun _ _ => .error "not used"
  reposGetContentRes := fun p =>
    if p = "" then
      .ok (.dir [{ name := "empty.txt", path := "empty.txt",
                   itemType := "file", size := some 0, sha := "sha0" }])
    else .error "not listed"

/-- A host whose listing of "src" holds one small file whose per-file fetch
fails, exercising the swallowed-failure clause of C4. -/
def hostC4w : GitHubHost where
  getRefRes := fun _ => .error "not used"
  getCommitRes := fun _ => .error "not used"
  createBlobRes := fun _ _ => .error "not used"
  createTreeRes := fun _ _ => .error "not used"
  createCommitRes := fun _ _ _ => .error "not used"
  updateRefRes := fun _ _ => .error "not used"
  pullsCreateRes := fun _ _ _ _ _ => .error "not used"
  requestReviewersRes := fun _ _ => .error "not used"
  reposGetContentRes := fun p =>
    if p = "src" then
      .ok (.dir [{ name := "a.ts", path := "src/a.ts",
                   itemType := "file", size := some 10, sha := "shaA" }])
    else .error "boom"

/-- The single item listed by `hostC4w`. -/
def itemC4w : RawItem :=
  { name := "a.ts", path := "src/a.ts", itemType := "file",
    size := some 10, sha := "shaA" }

/-! ## getAccessToken (githubTools.ts lines 8-40) -/

/-- The cached connection settings (`connectionSettings.settings`):
`expires_at` is the parsed expiry instant (absent when the field is
missing), and the two places an access token may live
(`settings.access_token` and `settings.oauth.credentials.access_token`). -/
structure ConnSettings where
  expires_at : Option Int
  access_token : Option String
  oauth_access_token : Option String
deriving DecidableEq

/-- The environment variables the token resolution reads. -/
structure TokenEnv where
  replIdentity : Option String
  webReplRenewal : Option String
deriving DecidableEq

/-- `process.env.REPL_IDENTITY ? 'repl ' + ... : process.env.WEB_REPL_RENEWAL
? 'depl ' + ... : null`. -/
def xReplitToken (env : TokenEnv) : Option String :=
  if jsTruthy env.replIdentity then some ("repl " ++ env.replIdentity.getD "")
  else if jsTruthy env.webReplRenewal then
    some ("depl " ++ env.webReplRenewal.getD "")
  else none

/-- Result of one `getAccessToken` call: whether the connector endpoint was
queried, the returned token (or the thrown error), and the cache state
afterwards. -/
structure TokenCallResult where
  fetchPerformed : Bool
  result : Except String (Option String)
  newCache : Option ConnSettings

/-- `getAccessToken`: return the cached token while the declared expiry is
strictly in the future (`new Date(expires_at).getTime() > Date.now()`);
otherwise resolve an identity token from the environment (throwing when
neither form is present) and fetch fresh connection settings, throwing when
they carry no usable token.  `fetched` is the connector response the fetch
would observe; a `none` response makes the unguarded
`connectionSettings.settings` access throw a TypeError. -/
def getAccessToken (cache : Option ConnSettings) (now : Int) (env : TokenEnv)
    (fetched : Option ConnSettings) : TokenCallResult :=
  match cache with
  | some s =>
    match s.expires_at with
    | some e =>
      if e > now then
        { fetchPerformed := false, result := .ok s.access_token,
          newCache := cache }
      else getAccessTokenFetch cache env fetched
    | none => getAccessTokenFetch cache env fetched
  | none => getAccessTokenFetch cache env fetched
where
  getAccessTokenFetch (cache : Option ConnSettings) (env : TokenEnv)
      (fetched : Option ConnSettings) : TokenCallResult :=
    match xReplitToken env with
    | none =>
        { fetchPerformed := false,
          result := .error "X_REPLIT_TOKEN not found for repl/depl",
          newCache := cache }
    | some _ =>
      match fetched with
      | none =>
          { fetchPerformed := true, result := .error "TypeError",
            newCache := none }
      | some ns =>
        let accessToken := jsOrStr ns.access_token ns.oauth_access_token
        if jsTruthy accessToken then
          { fetchPerformed := true, result := .ok accessToken,
            newCache := some ns }
        else
          { fetchPerformed := true, result := .error "GitHub not connected",
            newCache := some ns }

/-- The cached settings used by the `getAccessToken_cache` witness. -/
def cachedC5 : ConnSettings :=
  { expires_at := some 100, access_token := some "tok-cached",
    oauth_access_token := none }

/-- The environment used by the `getAccessToken_cache` witness. -/
def envC5 : TokenEnv :=
  { replIdentity := some "id", webReplRenewal := none }

/-! ## Notion board model and readKanbanBoard (notionTools.ts lines 505-631) -/

/-- One rich-text item as observed by the extractor (`plain_text`). -/
structure RichText where
  plain_text : String
deriving DecidableEq

/-- One property value of a Notion page, holding only the payloads the
extractor reads: a `title` array, a `select` (its `name`), a `rich_text`
array and a `people` array (their `name`s). -/
structure PropValue where
  title : Option (List RichText)
  select : Option String
  rich_text : Option (List RichText)
  people : Option (List String)
deriving DecidableEq

/-- A property value carrying none of the payloads. -/
def PropValue.empty : PropValue :=
  { title := none, select := none, rich_text := none, people := none }

/-- A page returned by the Notion search.  `parent_database_id` is the
database the page lives in; the tool code never reads it. -/
structure NotionPage where
  id : String
  parent_database_id : String
  properties : List (String × PropValue)
  created_time : String
  last_edited_time : String
  url : String
deriving DecidableEq

/-- A task as produced by `readKanbanBoardTool` (its output schema);
named `BoardTask` because `Task` is taken by the Lean core library. -/
structure BoardTask where
  id : String
  title : String
  status : String
  description : String
  assignee : String
  priority : String
  createdTime : String
  lastEditedTime : String
  url : String
  properties : List (String × PropValue)
deriving DecidableEq

/-- Property access on the page's property object. -/
def propGet (props : List (String × PropValue)) (k : String) :
    Option PropValue :=
  props.lookup k

/-- `properties.Title || properties.Name || properties.title ||
properties.name` (an object is truthy whenever present). -/
def titleProp (props : List (String × PropValue)) : Option PropValue :=
  propGet props "Title" <|> propGet props "Name" <|> propGet props "title"
    <|> propGet props "name"

/-- Title extraction: the first `plain_text` of the chosen alias's `title`
array when non-empty, else `"Untitled"`. -/
def extractTitle (props : List (String × PropValue)) : String :=
  match titleProp props with
  | some p =>
    match p.title with
    | some (r :: _) => r.plain_text
    | some [] => "Untitled"
    | none => "Untitled"
  | none => "Untitled"

/-- Status extraction: the `select.name` of `Status`/`status` when the
alias is present with a select payload, else `"Unknown"`. -/
def extractStatus (props : List (String × PropValue)) : String :=
  match propGet props "Status" <|> propGet props "status" with
  | some p =>
    match p.select with
    | some name => name
    | none => "Unknown"
  | none => "Unknown"

/-- Description extraction: first `plain_text` of the alias's `rich_text`
array when non-empty, else `""`. -/
def extractDescription (props : List (String × PropValue)) : String :=
  match propGet props "Description" <|> propGet props "description" with
  | some p =>
    match p.rich_text with
    | some (r :: _) => r.plain_text
    | some [] => ""
    | none => ""
  | none => ""

/-- Assignee extraction: first person name of the alias's `people` array
when non-empty, else `""`. -/
def extractAssignee (props : List (String × PropValue)) : String :=
  match propGet props "Assignee" <|> propGet props "assignee" with
  | some p =>
    match p.people with
    | some (a :: _) => a
    | some [] => ""
    | none => ""
  | none => ""

/-- Priority extraction: the alias's `select.name` when present,
else `""`. -/
def extractPriority (props : List (String × PropValue)) : String :=
  match propGet props "Priority" <|> propGet props "priority" with
  | some p =>
    match p.select with
    | some name => name
    | none => ""
  | none => ""

/-- The per-page task extraction of `readKanbanBoardTool`. -/
def extractTask (page : NotionPage) : BoardTask :=
  { id := page.id, title := extractTitle page.properties,
    status := extractStatus page.properties,
    description := extractDescription page.properties,
    assignee := extractAssignee page.properties,
    priority := extractPriority page.properties,
    createdTime := page.created_time,
    lastEditedTime := page.last_edited_time, url := page.url,
    properties := page.properties }

/-- `readKanbanBoardTool.execute`: the code builds a status filter object
and database-scoped query parameters but never uses them — it issues a
page-type search (`notion.search`) and maps every result through the
extractor.  `databaseId` and `statusFilter` therefore do not influence the
result; `searchResults` is the host's search response. -/
def readKanbanBoard (searchResults : List NotionPage) (databaseId : String)
    (statusFilter : Option String) : List BoardTask :=
  searchResults.map extractTask

/-- The page used as failing input for C3: status "Done", living in
database "db-other". -/
def pageC3 : NotionPage :=
  { id := "p1", parent_database_id := "db-other",
    properties :=
      [("Title", { PropValue.empty with title := some [{ plain_text := "Fix bug" }] }),
       ("Status", { PropValue.empty with select := some "Done" })],
    created_time := "2025-01-01T00:00:00Z",
    last_edited_time := "2025-01-02T00:00:00Z",
    url := "https://notion.test/p1" }

/-- Properties holding a title payload under both `"Title"` and `"Name"`. -/
def propsC6 : List (String × PropValue) :=
  [("Name", { PropValue.empty with title := some [{ plain_text := "from-name" }] }),
   ("Title", { PropValue.empty with title := some [{ plain_text := "from-title" }] })]

/-! ## Task-discovery step (ctoAutomationWorkflow.ts lines 5-123)

The step invokes the agent and then extracts metrics from the agent's final
free text with three regex-style searches; the regexes
`/(\d+)\s*tasks?\s*(processed|completed|handled)/i` and
`/pull request[s]?\s*[#]?(\d+)/gi` are embedded as explicit scanners over
the character list.  Only ASCII case folding and the common whitespace
characters are modelled. -/

/-- A character matched by the regex class `\s` (common cases). -/
def jsSpace (c : Char) : Bool :=
  c = ' ' || c = '\t' || c = '\n' || c = '\r' || c = '\x0b' || c = '\x0c'

/-- ASCII-lowered character list (JS `toLowerCase` on ASCII text). -/
def lowerList (l : List Char) : List Char :=
  l.map Char.toLower

/-- `parseInt` on a run of decimal digits. -/
def digitsToNat (ds : List Char) : Nat :=
  ds.foldl (fun acc c => acc * 10 + (c.toNat - 48)) 0

/-- Case-insensitive literal match at the head of the input: returns the
consumed input characters and the rest. -/
def matchLit : List Char → List Char → Option (List Char × List Char)
  | [], l => some ([], l)
  | _ :: _, [] => none
  | p :: ps, c :: cs =>
    if c.toLower = p.toLower then
      match matchLit ps cs with
      | some (m, r) => some (c :: m, r)
      | none => none
    else none

/-- Greedy optional single character (`x?` in a regex): consume the head
character when it satisfies the predicate. -/
def optCharIf (p : Char → Bool) : List Char → List Char × List Char
  | [] => ([], [])
  | c :: t => if p c then ([c], t) else ([], c :: t)

/-- The alternation `(processed|completed|handled)` matched at the head of
the input (case-insensitively). -/
def matchVerb (l : List Char) : Bool :=
  (matchLit "processed".toList l).isSome
    || (matchLit "completed".toList l).isSome
    || (matchLit "handled".toList l).isSome

/-- `/(\d+)\s*tasks?\s*(processed|completed|handled)/i` matched at the head
of the input: a non-empty digit run, optional whitespace, `task`, an
optional `s`, optional whitespace, one of the three verbs.  Returns the
captured count. -/
def taskMatchAt (l : List Char) : Option Nat :=
  let ds := l.takeWhile Char.isDigit
  let r1 := l.dropWhile Char.isDigit
  if ds.isEmpty then none
  else
    let r2 := r1.dropWhile jsSpace
    match matchLit "task".toList r2 with
    | none => none
    | some (_, r3) =>
      let o := optCharIf (fun c => c.toLower == 's') r3
      let r5 := o.2.dropWhile jsSpace
      if matchVerb r5 then some (digitsToNat ds) else none

/-- The first (leftmost) match of the task-count regex over the text. -/
def firstTaskMatch : List Char → Option Nat
  | [] => none
  | c :: t =>
    match taskMatchAt (c :: t) with
    | some n => some n
    | none => firstTaskMatch t

/-- `/pull request[s]?\s*[#]?(\d+)/i` matched at the head of the input:
the literal `pull request`, optional `s`, optional whitespace, optional
`#`, a non-empty digit run.  Returns the full matched text and the rest of
the input. -/
def prMatchAt (l : List Char) : Option (List Char × List Char) :=
  match matchLit "pull request".toList l with
  | none => none
  | some (m1, r1) =>
    let o2 := optCharIf (fun c => c.toLower == 's') r1
    let m3 := o2.2.takeWhile jsSpace
    let r3 := o2.2.dropWhile jsSpace
    let o4 := optCharIf (fun c => c == '#') r3
    let ds := o4.2.takeWhile Char.isDigit
    let r5 := o4.2.dropWhile Char.isDigit
    if ds.isEmpty then none
    else some (m1 ++ o2.1 ++ m3 ++ o4.1 ++ ds, r5)

/-- The global (`g` flag) scan collecting the successive non-overlapping
matches of the pull-request regex, resuming after each match; the fuel
argument (instantiated with the text length, which each step strictly
decreases) keeps the recursion structural. -/
def prScanAux : Nat → List Char → List (List Char)
  | 0, _ => []
  | _ + 1, [] => []
  | fuel + 1, c :: t =>
    match prMatchAt (c :: t) with
    | some (m, r) => m :: prScanAux fuel r
    | none => prScanAux fuel t

/-- All matches of the pull-request regex over the text, in order. -/
def prScan (l : List Char) : List (List Char) :=
  prScanAux l.length l

/-- Case-sensitive literal prefix test. -/
def litAt : List Char → List Char → Bool
  | [], _ => true
  | _ :: _, [] => false
  | p :: ps, c :: cs => p == c && litAt ps cs

/-- JS `String.prototype.includes`: the pattern occurs somewhere in the
list. -/
def containsSeq (pat : List Char) : List Char → Bool
  | [] => pat.isEmpty
  | c :: t => litAt pat (c :: t) || containsSeq pat t

/-- The proposition that `pat` occurs as a contiguous subsequence of `l`. -/
def ContainsSeq (pat l : List Char) : Prop :=
  ∃ pre suf, l = pre ++ pat ++ suf

/-- Output schema of the task-discovery step. -/
structure WorkflowMetrics where
  tasksProcessed : Nat
  completedTasks : List String
  errors : List String
  summary : String
deriving DecidableEq

/-- The metric extraction the step performs on the agent's final text:
the captured count of the first task-count match (0 when none), one
completed-task entry per pull-request match (the matched text), a single
fixed error line exactly when the lowered text contains `error` or
`failed`, and the summary line. -/
def taskDiscoveryParse (text : String) : WorkflowMetrics :=
  let l := text.toList
  let tasksProcessed := match firstTaskMatch l with | some n => n | none => 0
  let completedTasks := (prScan l).map List.asString
  let errors :=
    if containsSeq "error".toList (lowerList l)
        || containsSeq "failed".toList (lowerList l) then
      ["Some tasks encountered errors - check agent logs for details"]
    else []
  { tasksProcessed := tasksProcessed, completedTasks := completedTasks,
    errors := errors,
    summary := "CTO Automation completed: " ++ toString tasksProcessed
      ++ " tasks processed, " ++ toString completedTasks.length
      ++ " pull requests created. Agent response: "
      ++ (l.take 500).asString ++ (if 500 < l.length then "..." else "") }

/-- `taskDiscoveryStep.execute`: on agent completion, extract metrics from
the final text; when the agent invocation throws (including the agent-not-
registered throw inside the `try`), the `catch` converts the failure into a
zero-progress result with one error string. -/
def taskDiscoveryStep (agentOutcome : Except String String) :
    WorkflowMetrics :=
  match agentOutcome with
  | .ok text => taskDiscoveryParse text
  | .error msg =>
    { tasksProcessed := 0, completedTasks := [],
      errors := ["Workflow execution failed: " ++ msg],
      summary := "CTO Automation failed: " ++ msg }

/-- The shape of a full match of the pull-request regex: the literal
`pull request` (case-insensitively), an optional `s`, a run of whitespace,
an optional `#`, and a non-empty digit run. -/
def IsPrPhrase (m : List Char) : Prop :=
  ∃ w s ws hh ds, m = w ++ s ++ ws ++ hh ++ ds ∧
    lowerList w = "pull request".toList ∧
    (s = [] ∨ ∃ c, s = [c] ∧ c.toLower = 's') ∧
    (∀ c ∈ ws, jsSpace c = true) ∧
    (hh = [] ∨ hh = ['#']) ∧
    ds ≠ [] ∧ (∀ c ∈ ds, c.isDigit = true)

/-- The spec-worded pattern `pull request #<N>`: the literal
`pull request #` (case-insensitively) followed directly by a digit, matched
at the head of the input.  Used to compare the code's regex against the
claim's wording. -/
def specHashPrAt (l : List Char) : Bool :=
  match matchLit "pull request #".toList l with
  | some (_, r) =>
    match r with
    | c :: _ => c.isDigit
    | [] => false
  | none => false

/-- Number of positions at which the spec-worded `pull request #<N>`
pattern occurs in the text. -/
def specPrOccurrences : List Char → Nat
  | [] => 0
  | c :: t => (if specHashPrAt (c :: t) then 1 else 0) + specPrOccurrences t

/-! ## Tool error handling (C8) and validateCodeQuality (C10)

Each tool wraps its body in `try/catch`.  The outcome of the catch handler
is modelled per tool: `thrown` when the handler rethrows the error,
`result` when it converts the error into a structured result.  The agent
(`ctoAgent.ts`) registers thirteen tools: the four Notion tools, the five
GitHub tools, and the four development tools of
`src/mastra/tools/developmentTools.ts`. -/

/-- Outcome of a tool invocation whose body failed: the error escapes, or a
structured result is returned. -/
inductive ToolOutcome (α : Type) where
  | thrown (e : String)
  | result (r : α)
deriving DecidableEq

/-- Output schema of `createBranchTool`. -/
structure BranchResult where
  success : Bool
  branchName : String
  sha : String
  message : String
deriving DecidableEq

/-- One branch of `listRepositoryBranchesTool`'s output. -/
structure BranchInfo where
  name : String
  sha : String
  protectedFlag : Bool
deriving DecidableEq

/-- Output schema of `listRepositoryBranchesTool`. -/
structure BranchListResult where
  success : Bool
  branches : List BranchInfo
  message : String
deriving DecidableEq

/-- Output schema of `updateTaskStatusTool` and `addTaskCommentTool`. -/
structure MessageResult where
  success : Bool
  message : String
deriving DecidableEq

/-- One test detail entry of `runCodeTestsTool`'s output. -/
structure TestDetail where
  file : String
  status : String
  message : Option String
deriving DecidableEq

/-- The `testResults` object of `runCodeTestsTool`'s output. -/
structure TestResults where
  passed : Nat
  failed : Nat
  total : Nat
  coverage : Option Nat
  details : List TestDetail
deriving DecidableEq

/-- Output schema of `runCodeTestsTool`. -/
structure TestRunResult where
  testResults : TestResults
  status : String
  recommendations : List String
deriving DecidableEq

/-- One issue of `validateCodeQualityTool`'s output. -/
structure QualityIssue where
  file : String
  line : Option Nat
  issueType : String
  category : String
  message : String
  suggestion : Option String
deriving DecidableEq

/-- The `summary` object of `validateCodeQualityTool`'s output. -/
structure QualitySummary where
  errors : Nat
  warnings : Nat
  passed : Bool
deriving DecidableEq

/-- Output schema of `validateCodeQualityTool`. -/
structure QualityResult where
  qualityScore : Int
  issues : List QualityIssue
  summary : QualitySummary
  recommendations : List String
deriving DecidableEq

/-- Catch handler of `createBranchTool` (githubTools.ts lines 98-107). -/
def createBranchCatch (branchName e : String) : ToolOutcome BranchResult :=
  .result { success := false, branchName := branchName, sha := "",
            message := "Failed to create branch: " ++ e }

/-- Catch handler of `commitCodeTool` (githubTools.ts lines 215-222). -/
def commitCodeCatch (e : String) : ToolOutcome CommitResult :=
  .result { success := false, commitSha := none,
            message := "Failed to commit code: " ++ e }

/-- Catch handler of `createPullRequestTool` (githubTools.ts lines
296-303). -/
def createPullRequestCatch (e : String) : ToolOutcome PrResult :=
  .result { success := false, pullRequestUrl := none,
            pullRequestNumber := none,
            message := "Failed to create pull request: " ++ e }

/-- Catch handler of `getRepositoryContentTool` (githubTools.ts lines
392-400). -/
def getRepositoryContentCatch (e : String) : ToolOutcome RepoContentResult :=
  .result { success := false, items := [],
            message := "Failed to get repository content: " ++ e }

/-- Catch handler of `listRepositoryBranchesTool` (githubTools.ts lines
449-457). -/
def listRepositoryBranchesCatch (e : String) : ToolOutcome BranchListResult :=
  .result { success := false, branches := [],
            message := "Failed to list branches: " ++ e }

/-- Catch handler of `updateTaskStatusTool` (notionTools.ts): converts the
error into a failure message. -/
def updateTaskStatusCatch (e : String) : ToolOutcome MessageResult :=
  .result { success := false,
            message := "Failed to update task status: " ++ e }

/-- Catch handler of `addTaskCommentTool` (notionTools.ts). -/
def addTaskCommentCatch (e : String) : ToolOutcome MessageResult :=
  .result { success := false, message := "Failed to add comment: " ++ e }

/-- Catch handler of `runCodeTestsTool` (developmentTools.ts lines
637-658): a structured failure report (its schema has a `status` field,
not a `success` flag). -/
def runCodeTestsCatch (e : String) : ToolOutcome TestRunResult :=
  .result
    { testResults :=
        { passed := 0, failed := 1, total := 1, coverage := none,
          details := [{ file := "test-runner", status := "failed",
                        message := some ("Test execution failed: " ++ e) }] },
      status := "failed",
      recommendations :=
        ["Fix test execution issues before proceeding",
         "Check test configuration and dependencies"] }

/-- Catch handler of `readKanbanBoardTool` (notionTools.ts lines 625-629):
rethrows. -/
def readKanbanBoardCatch (e : String) : ToolOutcome (List BoardTask) :=
  .thrown e

/-- Catch handler of `queryTaskDetailsTool` (notionTools.ts lines 845-849):
rethrows. -/
def queryTaskDetailsCatch (e : String) : ToolOutcome BoardTask :=
  .thrown e

/-- Catch handler of `analyzeCodebaseTool` (developmentTools.ts lines
80-84): rethrows.  The success payload (a mock analysis object) is
irrelevant to the error-path claim and left abstract. -/
def analyzeCodebaseCatch (e : String) : ToolOutcome Unit :=
  .thrown e

/-- Catch handler of `implementCodeChangesTool` (developmentTools.ts lines
545-549): rethrows. -/
def implementCodeChangesCatch (e : String) : ToolOutcome Unit :=
  .thrown e

/-- Catch handler of `validateCodeQualityTool` as registered to the agent
(developmentTools.ts lines 776-780): rethrows. -/
def validateCodeQualityCatch (e : String) : ToolOutcome QualityResult :=
  .thrown e

/-- `filePaths[0] || 'example.ts'`. -/
def jsFirstOr (l : List String) (d : String) : String :=
  match l with
  | [] => d
  | f :: _ => if f = "" then d else f

/-- JS `String.prototype.includes` on strings. -/
def strIncl (hay pat : String) : Bool :=
  containsSeq pat.toList hay.toList

/-- JS `String.prototype.endsWith` on strings. -/
def strEnds (s pat : String) : Bool :=
  litAt pat.toList.reverse s.toList.reverse

/-- The issues produced by the success path of `validateCodeQualityTool`
(developmentTools.ts lines 702-740): per file a TypeScript info issue when
the name ends in `.ts`/`.tsx` and a React info issue when it contains
`component`, then one fixed style warning. -/
def vcqIssues (filePaths : List String) : List QualityIssue :=
  (filePaths.map fun fp =>
    (if strEnds fp ".tsx" || strEnds fp ".ts" then
      [{ file := fp, line := some 1, issueType := "info",
         category := "TypeScript",
         message := "File follows TypeScript best practices",
         suggestion :=
           some "Consider adding JSDoc comments for better documentation" }]
     else []) ++
    (if strIncl fp "component" then
      [{ file := fp, line := none, issueType := "info", category := "React",
         message := "Component follows React patterns",
         suggestion :=
           some "Ensure proper prop validation and accessibility attributes" }]
     else [])).flatten
  ++ [{ file := jsFirstOr filePaths "example.ts", line := none,
        issueType := "warning", category := "Style",
        message := "Consider using more descriptive variable names",
        suggestion := none }]

/-- Success path of `validateCodeQualityTool` as registered to the agent
(developmentTools.ts lines 686-775): score starts at 95, drops by 10 per
error and 2 per warning, and is clamped into [0, 100]. -/
def validateCodeQuality (filePaths : List String) : QualityResult :=
  let issues := vcqIssues filePaths
  let errors := (issues.filter fun i => i.issueType == "error").length
  let warnings := (issues.filter fun i => i.issueType == "warning").length
  let qualityScore : Int :=
    max 0 (min 100 ((95 : Int) - ((errors : Int) * 10 + (warnings : Int) * 2)))
  let recs :=
    ["Code follows ZenQuill quality standards",
     "Continue following established patterns",
     "Add comprehensive error handling where needed",
     "Ensure proper logging is in place",
     "Consider performance implications for user-facing features"]
  { qualityScore := qualityScore, issues := issues,
    summary := { errors := errors, warnings := warnings,
                 passed := errors == 0 },
    recommendations :=
      if errors > 0 then
        "Fix all error-level issues before deployment" :: recs
      else recs }

/-- The issues produced by the part_000 variant of
`validateCodeQualityTool` (lines 1001-1037): the TypeScript check uses
`includes('.ts')`/`includes('.tsx')` and no line number. -/
def vcqIssuesAlt (filePaths : List String) : List QualityIssue :=
  (filePaths.map fun fp =>
    (if strIncl fp ".ts" || strIncl fp ".tsx" then
      [{ file := fp, line := none, issueType := "info",
         category := "TypeScript",
         message := "File follows TypeScript best practices",
         suggestion :=
           some "Consider adding JSDoc comments for better documentation" }]
     else []) ++
    (if strIncl fp "component" then
      [{ file := fp, line := none, issueType := "info", category := "React",
         message := "Component follows React patterns",
         suggestion :=
           some "Ensure proper prop validation and accessibility attributes" }]
     else [])).flatten
  ++ [{ file := jsFirstOr filePaths "example.ts", line := none,
        issueType := "warning", category := "Style",
        message := "Consider using more descriptive variable names",
        suggestion := none }]

/-- Success path of the part_000 variant of `validateCodeQualityTool`
(lines 986-1072): score starts at 100, the summary hardcodes zero errors,
and the score is clamped into [0, 100]. -/
def validateCodeQualityAlt (filePaths : List String) : QualityResult :=
  let issues := vcqIssuesAlt filePaths
  let errors : Nat := 0
  let warnings := (issues.filter fun i => i.issueType == "warning").length
  let qualityScore : Int :=
    max 0 (min 100 ((100 : Int) - ((errors : Int) * 10 + (warnings : Int) * 2)))
  let recs :=
    ["Code follows ZenQuill quality standards",
     "Continue following established patterns",
     "Add comprehensive error handling where needed",
     "Ensure proper logging is in place",
     "Consider performance implications for user-facing features"]
  { qualityScore := qualityScore, issues := issues,
    summary := { errors := errors, warnings := warnings, passed := true },
    recommendations :=
      if errors > 0 then
        "Fix all error-level issues before deployment" :: recs
      else recs }

/-- Catch handler of the part_000 variant of `validateCodeQualityTool`
(lines 1074-1097): returns a score of 0 with one system error issue. -/
def validateCodeQualityAltOnError (e : String) : QualityResult :=
  { qualityScore := 0,
    issues := [{ file := "quality-validator", line := none,
                 issueType := "error", category := "System",
                 message := "Quality validation failed: " ++ e,
                 suggestion := none }],
    summary := { errors := 1, warnings := 0, passed := false },
    recommendations :=
      ["Fix quality validation system issues",
       "Check file access permissions",
       "Retry validation after fixing system issues"] }

/-! ## Theorems -/

/-- C1: on a successful `commitCode` run the issued trace is exactly the
head-ref read, the commit read, one blob-create per file in file order,
then one tree-create, one commit-create and one ref-update, in that order;
the ref-update uses the sha returned by commit-create, and the new commit's
sole parent is the head sha read at the start. -/
theorem commitCode_trace (host : GitHubHost) (branch message : String)
    (files : List CommitFile)
    (h : (commitCode host branch message files).2.success = true) :
    ∃ headSha baseTreeSha entries treeSha newSha,
      host.getRefRes ("heads/" ++ branch) = .ok headSha ∧
      host.createCommitRes message treeSha [headSha] = .ok newSha ∧
      (commitCode host branch message files).1 =
        [GhCall.getRef ("heads/" ++ branch), GhCall.getCommit headSha]
        ++ files.map (fun f => GhCall.createBlob f.content f.encoding)
        ++ [GhCall.createTree baseTreeSha entries,
            GhCall.createCommit message treeSha [headSha],
            GhCall.updateRef ("heads/" ++ branch) newSha] := by
  cases h1 : host.getRefRes ("heads/" ++ branch) with
  | error e => simp [commitCode, h1] at h
  | ok headSha =>
    cases h2 : host.getCommitRes headSha with
    | error e => simp [commitCode, h1, h2] at h
    | ok baseTreeSha =>
      cases h3 : blobEntries host files with
      | error e => simp [commitCode, h1, h2, h3] at h
      | ok entries =>
        cases h4 : host.createTreeRes baseTreeSha entries with
        | error e => simp [commitCode, h1, h2, h3, h4] at h
        | ok treeSha =>
          cases h5 : host.createCommitRes message treeSha [headSha] with
          | error e => simp [commitCode, h1, h2, h3, h4, h5] at h
          | ok newSha =>
            cases h6 : host.updateRefRes ("heads/" ++ branch) newSha with
            | error e => simp [commitCode, h1, h2, h3, h4, h5, h6] at h
            | ok u =>
              refine ⟨headSha, baseTreeSha, entries, treeSha, newSha, ?_, ?_, ?_⟩ <;>
                simp [commitCode, h1, h2, h3, h4, h5, h6, blobCalls]

/-- Witness for `commitCode_trace`: on a concrete healthy host with two
files the run succeeds and the trace is as stated. -/
theorem commitCode_trace_witness :
    (commitCode hostC1 "main" "msg" filesC1).2.success = true ∧
    ∃ headSha baseTreeSha entries treeSha newSha,
      hostC1.getRefRes ("heads/" ++ "main") = .ok headSha ∧
      hostC1.createCommitRes "msg" treeSha [headSha] = .ok newSha ∧
      (commitCode hostC1 "main" "msg" filesC1).1 =
        [GhCall.getRef ("heads/" ++ "main"), GhCall.getCommit headSha]
        ++ filesC1.map (fun f => GhCall.createBlob f.content f.encoding)
        ++ [GhCall.createTree baseTreeSha entries,
            GhCall.createCommit "msg" treeSha [headSha],
            GhCall.updateRef ("heads/" ++ "main") newSha] :=
  ⟨by decide, commitCode_trace hostC1 "main" "msg" filesC1 (by decide)⟩

/-- C2: (1) when PR creation fails, no reviewer-request call is issued;
(2) any reviewer-request call in the trace comes after a successful PR
creation, targets the created PR number, and carries the given reviewer
list; (3) when the reviewer-request call fails after the PR was created,
the tool result has `success = false` even though the PR exists. -/
theorem createPullRequest_reviewer_order (host : GitHubHost)
    (title head base body : String) (notionTaskUrl : Option String)
    (reviewers : Option (List String)) (draft : Bool) :
    (∀ e, host.pullsCreateRes title head base (prBodyFull body notionTaskUrl)
        draft = .error e →
      ∀ n rs, GhCall.requestReviewers n rs ∉
        (createPullRequest host title head base body notionTaskUrl reviewers
          draft).1) ∧
    (∀ n rs, GhCall.requestReviewers n rs ∈
        (createPullRequest host title head base body notionTaskUrl reviewers
          draft).1 →
      ∃ num url, host.pullsCreateRes title head base
          (prBodyFull body notionTaskUrl) draft = .ok (num, url) ∧
        n = num ∧ reviewers = some rs ∧
        (createPullRequest host title head base body notionTaskUrl reviewers
          draft).1 =
          [GhCall.pullsCreate title head base (prBodyFull body notionTaskUrl)
            draft, GhCall.requestReviewers num rs]) ∧
    (∀ rs num url e, reviewers = some rs → rs ≠ [] →
      host.pullsCreateRes title head base (prBodyFull body notionTaskUrl)
        draft = .ok (num, url) →
      host.requestReviewersRes num rs = .error e →
      (createPullRequest host title head base body notionTaskUrl reviewers
        draft).2.success = false) := by
  refine ⟨?_, ?_, ?_⟩
  · intro e he n rs
    simp [createPullRequest, he]
  · intro n rs hmem
    cases hc : host.pullsCreateRes title head base
        (prBodyFull body notionTaskUrl) draft with
    | error e => simp [createPullRequest, hc] at hmem
    | ok p =>
      obtain ⟨num, url⟩ := p
      cases hrev : reviewers with
      | none => simp [createPullRequest, hc, hrev] at hmem
      | some rs0 =>
        by_cases hlen : rs0.length > 0
        · cases hr : host.requestReviewersRes num rs0 with
          | error e =>
            simp only [createPullRequest, hc, hrev, if_pos hlen, hr,
              List.mem_cons, List.mem_singleton, List.not_mem_nil,
              or_false] at hmem
            rcases hmem with hmem | hmem
            · exact absurd hmem (by simp)
            · obtain ⟨hn, hrs⟩ := GhCall.requestReviewers.inj hmem
              subst hn
              subst hrs
              exact ⟨n, url, rfl, rfl, rfl, by
                simp [createPullRequest, hc, hrev, if_pos hlen, hr]⟩
          | ok u =>
            simp only [createPullRequest, hc, hrev, if_pos hlen, hr,
              List.mem_cons, List.mem_singleton, List.not_mem_nil,
              or_false] at hmem
            rcases hmem with hmem | hmem
            · exact absurd hmem (by simp)
            · obtain ⟨hn, hrs⟩ := GhCall.requestReviewers.inj hmem
              subst hn
              subst hrs
              exact ⟨n, url, rfl, rfl, rfl, by
                simp [createPullRequest, hc, hrev, if_pos hlen, hr]⟩
        · simp [createPullRequest, hc, hrev, if_neg hlen] at hmem
  · intro rs num url e hrev hne hc hr
    have hlen : rs.length > 0 := List.length_pos.mpr hne
    simp [createPullRequest, hc, hrev, if_pos hlen, hr]

/-- Witness for `createPullRequest_reviewer_order`: on a concrete host where
PR creation succeeds and the reviewer request fails, the tool reports
`success = false`. -/
theorem createPullRequest_reviewer_order_witness :
    (createPullRequest hostC2 "t" "feature" "main" "body" none
      (some ["alice"]) false).2.success = false :=
  (createPullRequest_reviewer_order hostC2 "t" "feature" "main" "body" none
      (some ["alice"]) false).2.2 ["alice"] 7 "https://example.test/pr/7"
    "reviewer request rejected" rfl (by decide) rfl rfl

/-- C4 counterexample: a returned item of type `file` with `size = 0`
(which is `< 100000`) for which no content fetch is attempted — the trace
holds only the top-level listing call, because `item.size &&` is falsy for
a zero size.  This refutes `always attempts content fetch for items with
size < 100000 and type file` as stated. -/
theorem getRepositoryContent_size_zero_counterexample :
    (getRepositoryContent hostC4ce "").1 = [GhCall.reposGetContent ""] ∧
    (getRepositoryContent hostC4ce "").2.items =
      [{ name := "empty.txt", path := "empty.txt", itemType := "file",
         size := some 0, content := none, sha := "sha0" }] := by
  constructor <;> rfl

/-- C4 amended: no returned item with a declared size of at least 100000
bytes carries content; for every listed item of type `file` whose size is
present and strictly between 0 and 100000 a content fetch is attempted;
and a failing per-file fetch leaves the item in the result without content
while the overall listing still succeeds. -/
theorem getRepositoryContent_amended (host : GitHubHost) (path : String) :
    (∀ it ∈ (getRepositoryContent host path).2.items,
       ∀ n, it.size = some n → 100000 ≤ n → it.content = none) ∧
    (∀ resp, host.reposGetContentRes path = .ok resp →
       (getRepositoryContent host path).2.success = true ∧
       ∀ i ∈ resp.items,
         (i.itemType = "file" → ∀ n, i.size = some n → 0 < n → n < 100000 →
            GhCall.reposGetContent i.path ∈ (getRepositoryContent host path).1) ∧
         (∀ e, host.reposGetContentRes i.path = .error e →
            (processItem host i).2.content = none ∧
            (processItem host i).2 ∈ (getRepositoryContent host path).2.items)) := by
  constructor
  · intro it hit n hsize hbig
    cases hl : host.reposGetContentRes path with
    | error e => simp [getRepositoryContent, hl] at hit
    | ok resp =>
      simp only [getRepositoryContent, hl, List.map_map, List.mem_map,
        Function.comp] at hit
      obtain ⟨i, hi, rfl⟩ := hit
      by_cases hcond : (i.itemType == "file" && sizeFetchable i.size) = true
      · have hs : sizeFetchable i.size = true := by
          simp only [Bool.and_eq_true] at hcond
          exact hcond.2
        simp only [processItem, hcond, if_true] at hsize ⊢
        cases hsz : i.size with
        | none => simp [hsz, sizeFetchable] at hs
        | some m =>
          simp only [hsz] at hsize
          obtain rfl : m = n := Option.some.inj hsize
          simp only [sizeFetchable, Bool.and_eq_true, decide_eq_true_eq,
            hsz] at hs
          omega
      · simp [processItem, hcond]
  · intro resp hl
    refine ⟨by simp [getRepositoryContent, hl], ?_⟩
    intro i hi
    constructor
    · intro htype n hsz hpos hlt
      have hcond : (i.itemType == "file" && sizeFetchable i.size) = true := by
        simp [htype, sizeFetchable, hsz]
        omega
      have h1 : (processItem host i).1 = [GhCall.reposGetContent i.path] := by
        simp [processItem, hcond]
      have hm1 : (processItem host i).1 ∈
          (resp.items.map (processItem host)).map Prod.fst :=
        List.mem_map_of_mem Prod.fst (List.mem_map_of_mem _ hi)
      have hm2 : GhCall.reposGetContent i.path ∈
          ((resp.items.map (processItem host)).map Prod.fst).flatten :=
        List.mem_flatten.mpr ⟨(processItem host i).1, hm1, by rw [h1]; simp⟩
      simp only [getRepositoryContent, hl]
      exact List.mem_cons_of_mem _ hm2
    · intro e hferr
      constructor
      · by_cases hcond : (i.itemType == "file" && sizeFetchable i.size) = true
        · simp [processItem, hcond, fetchedContent, hferr]
        · simp [processItem, hcond]
      · simp only [getRepositoryContent, hl, List.map_map, List.mem_map,
          Function.comp]
        exact ⟨i, hi, rfl⟩

/-- Witness for `getRepositoryContent_amended`: on a concrete host the
listing succeeds, the small file's content fetch is attempted, and its
failing fetch leaves the item in the result without content. -/
theorem getRepositoryContent_amended_witness :
    (getRepositoryContent hostC4w "src").2.success = true ∧
    GhCall.reposGetContent "src/a.ts" ∈ (getRepositoryContent hostC4w "src").1 ∧
    (processItem hostC4w itemC4w).2.content = none ∧
    (processItem hostC4w itemC4w).2 ∈ (getRepositoryContent hostC4w "src").2.items := by
  have h := (getRepositoryContent_amended hostC4w "src").2
    (.dir [itemC4w]) rfl
  refine ⟨h.1, ?_, ?_, ?_⟩
  · exact ((h.2 itemC4w (by decide)).1 rfl 10 rfl (by decide) (by decide))
  · exact ((h.2 itemC4w (by decide)).2 "boom" rfl).1
  · exact ((h.2 itemC4w (by decide)).2 "boom" rfl).2

/-- C5: with a cached token carrying a declared expiry, the cached token is
returned without a connector fetch exactly when the current time is
strictly before the expiry; a call made at or after the expiry instant,
with an identity token available, performs a fresh fetch of connection
settings. -/
theorem getAccessToken_cache (s : ConnSettings) (e now : Int)
    (env : TokenEnv) (fetched : Option ConnSettings)
    (hexp : s.expires_at = some e) :
    (((getAccessToken (some s) now env fetched).fetchPerformed = false ∧
      (getAccessToken (some s) now env fetched).result = .ok s.access_token)
        ↔ now < e) ∧
    (e ≤ now → xReplitToken env ≠ none →
      (getAccessToken (some s) now env fetched).fetchPerformed = true) := by
  constructor
  · constructor
    · intro h
      by_contra hlt
      have hle : e ≤ now := by omega
      have hnot : ¬ e > now := by omega
      rcases h with ⟨hf, hr⟩
      simp only [getAccessToken, hexp, if_neg hnot] at hf hr
      cases hx : xReplitToken env with
      | none => simp [getAccessToken.getAccessTokenFetch, hx] at hr
      | some t =>
        cases hfd : fetched with
        | none => simp [getAccessToken.getAccessTokenFetch, hx, hfd] at hf
        | some ns =>
          by_cases htk :
              jsTruthy (jsOrStr ns.access_token ns.oauth_access_token) = true
          · simp [getAccessToken.getAccessTokenFetch, hx, hfd, htk] at hf
          · simp [getAccessToken.getAccessTokenFetch, hx, hfd, htk] at hf
    · intro hlt
      have hgt : e > now := by omega
      constructor <;> simp [getAccessToken, hexp, if_pos hgt]
  · intro hle hx
    have hnot : ¬ e > now := by omega
    simp only [getAccessToken, hexp, if_neg hnot]
    cases hxv : xReplitToken env with
    | none => exact absurd hxv hx
    | some t =>
      cases hfd : fetched with
      | none => simp [getAccessToken.getAccessTokenFetch, hxv, hfd]
      | some ns =>
        by_cases htk :
            jsTruthy (jsOrStr ns.access_token ns.oauth_access_token) = true
        · simp [getAccessToken.getAccessTokenFetch, hxv, hfd, htk]
        · simp [getAccessToken.getAccessTokenFetch, hxv, hfd, htk]

/-- Witness for `getAccessToken_cache`: before the expiry (at time 50) the
cached token is served without a fetch; exactly at the expiry (time 100)
a fresh fetch is performed. -/
theorem getAccessToken_cache_witness :
    ((getAccessToken (some cachedC5) 50 envC5 none).fetchPerformed = false ∧
     (getAccessToken (some cachedC5) 50 envC5 none).result =
       .ok cachedC5.access_token) ∧
    (getAccessToken (some cachedC5) 100 envC5 none).fetchPerformed = true :=
  ⟨((getAccessToken_cache cachedC5 100 50 envC5 none rfl).1).mpr (by decide),
   (getAccessToken_cache cachedC5 100 100 envC5 none rfl).2 (by decide)
     (by decide)⟩

/-- C3 failing input evaluated: a search result with status "Done" from
database "db-other" is returned unchanged by a
`readKanbanBoard("db-board", "To Do")` call — the status filter and the
database id are both ignored. -/
theorem readKanbanBoard_ignores_filters :
    (readKanbanBoard [pageC3] "db-board" (some "To Do")).map BoardTask.status =
      ["Done"] ∧
    pageC3.parent_database_id = "db-other" := by
  constructor <;> rfl

/-- C6: when a page's properties hold a (non-empty) title payload under
`"Title"` and `"Name"` is also present, the extracted title is taken from
`"Title"`; when none of the four title aliases is present the title
defaults to `"Untitled"`; when neither status alias is present the status
defaults to `"Unknown"`. -/
theorem extract_title_status_aliases (props : List (String × PropValue)) :
    (∀ pT pN r rs, propGet props "Title" = some pT →
       propGet props "Name" = some pN → pT.title = some (r :: rs) →
       extractTitle props = r.plain_text) ∧
    (propGet props "Title" = none → propGet props "Name" = none →
       propGet props "title" = none → propGet props "name" = none →
       extractTitle props = "Untitled") ∧
    (propGet props "Status" = none → propGet props "status" = none →
       extractStatus props = "Unknown") := by
  refine ⟨?_, ?_, ?_⟩
  · intro pT pN r rs hT hN htitle
    simp [extractTitle, titleProp, hT, htitle]
  · intro h1 h2 h3 h4
    simp [extractTitle, titleProp, h1, h2, h3, h4]
  · intro h1 h2
    simp [extractStatus, h1, h2]

/-- Witness for `extract_title_status_aliases`: with both aliases present
the title comes from `"Title"`, and with no aliases at all the defaults
are produced. -/
theorem extract_title_status_aliases_witness :
    extractTitle propsC6 = "from-title" ∧
    extractTitle [] = "Untitled" ∧ extractStatus [] = "Unknown" :=
  ⟨(extract_title_status_aliases propsC6).1
      { PropValue.empty with title := some [{ plain_text := "from-title" }] }
      { PropValue.empty with title := some [{ plain_text := "from-name" }] }
      { plain_text := "from-title" } [] rfl rfl rfl,
   (extract_title_status_aliases []).2.1 rfl rfl rfl rfl,
   (extract_title_status_aliases []).2.2 rfl rfl⟩

/-- C7: when the agent invocation throws, the step returns (instead of
propagating) a result with zero tasks processed, an empty completed list,
and exactly one error string that contains the thrown message. -/
theorem taskDiscoveryStep_catch (msg : String) :
    taskDiscoveryStep (.error msg) =
      { tasksProcessed := 0, completedTasks := [],
        errors := ["Workflow execution failed: " ++ msg],
        summary := "CTO Automation failed: " ++ msg } ∧
    (taskDiscoveryStep (.error msg)).errors.length = 1 ∧
    ∃ pre suf,
      ("Workflow execution failed: " ++ msg).data = pre ++ msg.data ++ suf :=
  ⟨rfl, rfl, "Workflow execution failed: ".data, [], by
    rw [String.data_append, List.append_nil]⟩

/-- Consumed and remaining input of a case-insensitive literal match
concatenate to the input, and the consumed part agrees with the pattern up
to case. -/
theorem matchLit_spec (p : List Char) :
    ∀ l m r, matchLit p l = some (m, r) →
      m ++ r = l ∧ lowerList m = lowerList p := by
  induction p with
  | nil =>
    intro l m r h
    simp only [matchLit, Option.some.injEq, Prod.mk.injEq] at h
    obtain ⟨h1, h2⟩ := h
    subst h1; subst h2
    exact ⟨rfl, rfl⟩
  | cons p ps ih =>
    intro l m r h
    cases l with
    | nil => simp [matchLit] at h
    | cons c cs =>
      simp only [matchLit] at h
      by_cases hc : c.toLower = p.toLower
      · rw [if_pos hc] at h
        cases hm : matchLit ps cs with
        | none => rw [hm] at h; simp at h
        | some pr =>
          obtain ⟨m0, r0⟩ := pr
          rw [hm] at h
          simp only [Option.some.injEq, Prod.mk.injEq] at h
          obtain ⟨h1, h2⟩ := h
          subst h1; subst h2
          obtain ⟨ha, hl⟩ := ih cs m0 r0 hm
          refine ⟨by simp [ha], ?_⟩
          simp only [lowerList, List.map_cons] at hl ⊢
          rw [hc, hl]
      · rw [if_neg hc] at h; simp at h

/-- The two parts of a greedy optional-character step concatenate to the
input, and the consumed part is empty or one matching character. -/
theorem optCharIf_spec (p : Char → Bool) (l : List Char) :
    (optCharIf p l).1 ++ (optCharIf p l).2 = l ∧
    ((optCharIf p l).1 = [] ∨
      ∃ c, (optCharIf p l).1 = [c] ∧ p c = true) := by
  cases l with
  | nil => exact ⟨rfl, Or.inl rfl⟩
  | cons c t =>
    by_cases h : p c = true
    · refine ⟨by simp [optCharIf, h], Or.inr ⟨c, by simp [optCharIf, h], h⟩⟩
    · exact ⟨by simp [optCharIf, h], Or.inl (by simp [optCharIf, h])⟩

/-- A pull-request match splits the input and has the phrase shape. -/
theorem prMatchAt_spec (l m r : List Char) (h : prMatchAt l = some (m, r)) :
    m ++ r = l ∧ m ≠ [] ∧ IsPrPhrase m := by
  unfold prMatchAt at h
  cases hml : matchLit "pull request".toList l with
  | none => rw [hml] at h; simp at h
  | some pr =>
    obtain ⟨m1, r1⟩ := pr
    rw [hml] at h
    simp only at h
    obtain ⟨ha1, hl1⟩ := matchLit_spec _ _ _ _ hml
    obtain ⟨e2, hs2⟩ := optCharIf_spec (fun c => c.toLower == 's') r1
    obtain ⟨e4, hs4⟩ :=
      optCharIf_spec (fun c => c == '#')
        ((optCharIf (fun c => c.toLower == 's') r1).2.dropWhile jsSpace)
    by_cases hds :
        ((optCharIf (fun c => c == '#')
          ((optCharIf (fun c => c.toLower == 's') r1).2.dropWhile jsSpace)).2.takeWhile
            Char.isDigit).isEmpty = true
    · rw [if_pos hds] at h; simp at h
    · rw [if_neg hds] at h
      simp only [Option.some.injEq, Prod.mk.injEq] at h
      obtain ⟨hm, hr⟩ := h
      subst hm; subst hr
      have e3 :
          (optCharIf (fun c => c.toLower == 's') r1).2.takeWhile jsSpace ++
            (optCharIf (fun c => c.toLower == 's') r1).2.dropWhile jsSpace =
            (optCharIf (fun c => c.toLower == 's') r1).2 :=
        List.takeWhile_append_dropWhile _ _
      have e5 :
          ((optCharIf (fun c => c == '#')
            ((optCharIf (fun c => c.toLower == 's') r1).2.dropWhile jsSpace)).2.takeWhile
              Char.isDigit) ++
          ((optCharIf (fun c => c == '#')
            ((optCharIf (fun c => c.toLower == 's') r1).2.dropWhile jsSpace)).2.dropWhile
              Char.isDigit) =
          (optCharIf (fun c => c == '#')
            ((optCharIf (fun c => c.toLower == 's') r1).2.dropWhile jsSpace)).2 :=
        List.takeWhile_append_dropWhile _ _
      have happ : (m1 ++ ((optCharIf (fun c => c.toLower == 's') r1).1 ++
          ((optCharIf (fun c => c.toLower == 's') r1).2.takeWhile jsSpace ++
          ((optCharIf (fun c => c == '#')
            ((optCharIf (fun c => c.toLower == 's') r1).2.dropWhile jsSpace)).1 ++
          ((optCharIf (fun c => c == '#')
            ((optCharIf (fun c => c.toLower == 's') r1).2.dropWhile jsSpace)).2.takeWhile
              Char.isDigit))))) ++
          ((optCharIf (fun c => c == '#')
            ((optCharIf (fun c => c.toLower == 's') r1).2.dropWhile jsSpace)).2.dropWhile
              Char.isDigit) = l := by
        rw [List.append_assoc, List.append_assoc, List.append_assoc,
          List.append_assoc, e5, e4, e3, e2, ha1]
      have hm1ne : m1 ≠ [] := by
        intro hnil
        rw [hnil] at hl1
        simp [lowerList] at hl1
      refine ⟨by simpa [List.append_assoc] using happ, ?_, ?_⟩
      · simp [hm1ne]
      · refine ⟨m1, (optCharIf (fun c => c.toLower == 's') r1).1,
          (optCharIf (fun c => c.toLower == 's') r1).2.takeWhile jsSpace,
          (optCharIf (fun c => c == '#')
            ((optCharIf (fun c => c.toLower == 's') r1).2.dropWhile jsSpace)).1,
          (optCharIf (fun c => c == '#')
            ((optCharIf (fun c => c.toLower == 's') r1).2.dropWhile jsSpace)).2.takeWhile
              Char.isDigit,
          by simp [List.append_assoc], ?_, ?_, ?_, ?_, ?_, ?_⟩
        · rw [hl1]; decide
        · rcases hs2 with h0 | ⟨c, hc, hpred⟩
          · exact Or.inl h0
          · exact Or.inr ⟨c, hc, by simpa using hpred⟩
        · intro c hc
          exact List.mem_takeWhile_imp hc
        · rcases hs4 with h0 | ⟨c, hc, hpred⟩
          · exact Or.inl h0
          · have : c = '#' := by simpa using hpred
            exact Or.inr (by rw [hc, this])
        · intro hnil
          rw [hnil] at hds
          simp at hds
        · intro c hc
          exact List.mem_takeWhile_imp hc

/-- Every entry collected by the pull-request scan has the phrase shape and
occurs contiguously in the scanned text. -/
theorem prScanAux_mem (fuel : Nat) :
    ∀ l m, m ∈ prScanAux fuel l → IsPrPhrase m ∧ ContainsSeq m l := by
  induction fuel with
  | zero => intro l m hm; simp [prScanAux] at hm
  | succ fuel ih =>
    intro l m hm
    cases l with
    | nil => simp [prScanAux] at hm
    | cons c t =>
      cases hp : prMatchAt (c :: t) with
      | some pr =>
        obtain ⟨m0, r⟩ := pr
        simp only [prScanAux, hp, List.mem_cons] at hm
        rcases hm with rfl | hm2
        · obtain ⟨happ, hne, hphrase⟩ := prMatchAt_spec _ _ _ hp
          exact ⟨hphrase, [], r, by rw [List.nil_append, happ]⟩
        · obtain ⟨hph, pre, suf, hsplit⟩ := ih r m hm2
          obtain ⟨happ, hne, hphrase⟩ := prMatchAt_spec _ _ _ hp
          exact ⟨hph, m0 ++ pre, suf, by
            rw [← happ, hsplit]; simp [List.append_assoc]⟩
      | none =>
        simp only [prScanAux, hp] at hm
        obtain ⟨hph, pre, suf, hsplit⟩ := ih t m hm
        exact ⟨hph, c :: pre, suf, by rw [hsplit]; rfl⟩

/-- If the task-count regex matches at no position, the first-match search
comes up empty. -/
theorem firstTaskMatch_of_forall_none (l : List Char)
    (h : ∀ i, taskMatchAt (l.drop i) = none) : firstTaskMatch l = none := by
  induction l with
  | nil => rfl
  | cons c t ih =>
    have h0 := h 0
    rw [List.drop_zero] at h0
    simp only [firstTaskMatch, h0]
    exact ih fun i => by
      have hi := h (i + 1)
      rwa [List.drop_succ_cons] at hi

/-- If the task-count regex matches at position `i` with captured value `n`
and at no earlier position, the first-match search returns `n`. -/
theorem firstTaskMatch_of_least (i : Nat) :
    ∀ (l : List Char) (n : Nat), taskMatchAt (l.drop i) = some n →
      (∀ j, j < i → taskMatchAt (l.drop j) = none) →
      firstTaskMatch l = some n := by
  induction i with
  | zero =>
    intro l n h hj
    rw [List.drop_zero] at h
    cases l with
    | nil => exact absurd h (by simp [taskMatchAt, List.takeWhile])
    | cons c t => simp only [firstTaskMatch, h]
  | succ i ih =>
    intro l n h hj
    cases l with
    | nil =>
      rw [List.drop_nil] at h
      exact absurd h (by simp [taskMatchAt, List.takeWhile])
    | cons c t =>
      have h0 := hj 0 (Nat.succ_pos i)
      rw [List.drop_zero] at h0
      simp only [firstTaskMatch, h0]
      rw [List.drop_succ_cons] at h
      exact ih t n h fun j hlt => by
        have hji := hj (j + 1) (Nat.succ_lt_succ hlt)
        rwa [List.drop_succ_cons] at hji

/-- The case-sensitive prefix test is sound and complete. -/
theorem litAt_iff (pat : List Char) :
    ∀ l, litAt pat l = true ↔ ∃ suf, l = pat ++ suf := by
  induction pat with
  | nil => intro l; simp [litAt]
  | cons p ps ih =>
    intro l
    cases l with
    | nil => simp [litAt]
    | cons c t =>
      simp only [litAt, Bool.and_eq_true, beq_iff_eq]
      constructor
      · rintro ⟨rfl, h⟩
        obtain ⟨suf, rfl⟩ := (ih t).mp h
        exact ⟨suf, rfl⟩
      · rintro ⟨suf, hsuf⟩
        injection hsuf with h1 h2
        exact ⟨h1.symm, (ih t).mpr ⟨suf, h2⟩⟩

/-- The substring test agrees with the occurrence proposition. -/
theorem containsSeq_iff (pat : List Char) :
    ∀ l, containsSeq pat l = true ↔ ContainsSeq pat l := by
  intro l
  induction l with
  | nil =>
    simp only [containsSeq, List.isEmpty_iff]
    constructor
    · rintro rfl
      exact ⟨[], [], rfl⟩
    · rintro ⟨pre, suf, hsplit⟩
      exact (List.append_eq_nil.mp (List.append_eq_nil.mp hsplit.symm).1).2
  | cons c t ih =>
    simp only [containsSeq, Bool.or_eq_true]
    constructor
    · rintro (h | h)
      · obtain ⟨suf, hsuf⟩ := (litAt_iff pat (c :: t)).mp h
        exact ⟨[], suf, by rw [List.nil_append]; exact hsuf⟩
      · obtain ⟨pre, suf, hsplit⟩ := ih.mp h
        exact ⟨c :: pre, suf, by rw [hsplit]; rfl⟩
    · rintro ⟨pre, suf, hsplit⟩
      cases pre with
      | nil =>
        exact Or.inl ((litAt_iff pat (c :: t)).mpr ⟨suf, by
          rw [List.nil_append] at hsplit; exact hsplit⟩)
      | cons p pre2 =>
        injection hsplit with h1 h2
        exact Or.inr (ih.mpr ⟨pre2, suf, h2⟩)

/-- C9 counterexample: on the text `pull request 7` the step records one
completed-task entry although the text holds no occurrence of the
spec-worded pattern `pull request #<N>` — the code's regex makes the `#`
optional. -/
theorem taskDiscoveryParse_pr_counterexample :
    (taskDiscoveryParse "pull request 7").completedTasks.length = 1 ∧
    specPrOccurrences ("pull request 7".toList) = 0 ∧
    (taskDiscoveryParse "pull request 7").tasksProcessed = 0 ∧
    (taskDiscoveryParse "pull request 7").errors = [] := by
  refine ⟨?_, ?_, ?_, ?_⟩ <;> decide

/-- C9 amended: `tasksProcessed` is the captured count of the first
(leftmost) match of the task-count pattern and 0 when no position matches;
`completedTasks` has one entry per match collected by the global
pull-request scan, and every entry is a contiguous piece of the text of
the shape `pull request` + optional `s` + whitespace + optional `#` +
digits; the error list is non-empty exactly when the lowered text contains
`error` or `failed`. -/
theorem taskDiscoveryParse_amended (text : String) :
    ((∀ i, taskMatchAt (text.toList.drop i) = none) →
      (taskDiscoveryParse text).tasksProcessed = 0) ∧
    (∀ i n, taskMatchAt (text.toList.drop i) = some n →
      (∀ j, j < i → taskMatchAt (text.toList.drop j) = none) →
      (taskDiscoveryParse text).tasksProcessed = n) ∧
    (taskDiscoveryParse text).completedTasks.length =
      (prScan text.toList).length ∧
    (∀ s ∈ (taskDiscoveryParse text).completedTasks,
      IsPrPhrase s.toList ∧ ContainsSeq s.toList text.toList) ∧
    ((taskDiscoveryParse text).errors ≠ [] ↔
      (ContainsSeq "error".toList (lowerList text.toList) ∨
       ContainsSeq "failed".toList (lowerList text.toList))) := by
  have hTP : (taskDiscoveryParse text).tasksProcessed =
      (match firstTaskMatch text.toList with | some n => n | none => 0) := rfl
  have hCT : (taskDiscoveryParse text).completedTasks =
      (prScan text.toList).map List.asString := rfl
  have hER : (taskDiscoveryParse text).errors =
      (if containsSeq "error".toList (lowerList text.toList)
          || containsSeq "failed".toList (lowerList text.toList) then
        ["Some tasks encountered errors - check agent logs for details"]
      else []) := rfl
  refine ⟨?_, ?_, ?_, ?_, ?_⟩
  · intro h
    rw [hTP, firstTaskMatch_of_forall_none _ h]
  · intro i n h hj
    rw [hTP, firstTaskMatch_of_least i _ n h hj]
  · rw [hCT]; simp
  · intro s hs
    rw [hCT] at hs
    obtain ⟨m, hm, rfl⟩ := List.mem_map.mp hs
    have hms : (List.asString m).toList = m := rfl
    rw [hms]
    exact prScanAux_mem _ _ _ hm
  · rw [hER]
    by_cases hb : (containsSeq "error".toList (lowerList text.toList)
        || containsSeq "failed".toList (lowerList text.toList)) = true
    · rw [if_pos hb]
      simp only [Bool.or_eq_true] at hb
      constructor
      · intro _
        rcases hb with h | h
        · exact Or.inl ((containsSeq_iff _ _).mp h)
        · exact Or.inr ((containsSeq_iff _ _).mp h)
      · intro _
        simp
    · rw [if_neg hb]
      constructor
      · intro h
        exact absurd rfl h
      · intro h
        exfalso
        apply hb
        simp only [Bool.or_eq_true]
        rcases h with h | h
        · exact Or.inl ((containsSeq_iff _ _).mpr h)
        · exact Or.inr ((containsSeq_iff _ _).mpr h)

/-- Witness for `taskDiscoveryParse_amended`: on `2 tasks processed` the
first match is at position 0 and the step reports 2 tasks processed. -/
theorem taskDiscoveryParse_amended_witness :
    (taskDiscoveryParse "2 tasks processed").tasksProcessed = 2 :=
  (taskDiscoveryParse_amended "2 tasks processed").2.1 0 2 (by decide)
    (fun j hj => absurd hj (Nat.not_lt_zero j))

/-- C8 counterexample: `analyzeCodebase` is registered to the agent and is
not one of the two claimed exceptions, yet its catch handler rethrows the
error instead of returning a structured failure. -/
theorem analyzeCodebase_rethrows_counterexample :
    analyzeCodebaseCatch "boom" = ToolOutcome.thrown "boom" := rfl

/-- C8 amended: of the thirteen tools registered to the agent, the five
GitHub tools minus none, the two Notion mutation tools and `runCodeTests`
catch errors and return a structured failure (`success = false`, or
`status = "failed"` for `runCodeTests`, whose schema has no success flag),
while `readKanbanBoard`, `queryTaskDetails`, `analyzeCodebase`,
`implementCodeChanges` and `validateCodeQuality` rethrow. -/
theorem tool_error_propagation (branchName e : String) :
    createBranchCatch branchName e =
      .result { success := false, branchName := branchName, sha := "",
                message := "Failed to create branch: " ++ e } ∧
    commitCodeCatch e =
      .result { success := false, commitSha := none,
                message := "Failed to commit code: " ++ e } ∧
    createPullRequestCatch e =
      .result { success := false, pullRequestUrl := none,
                pullRequestNumber := none,
                message := "Failed to create pull request: " ++ e } ∧
    getRepositoryContentCatch e =
      .result { success := false, items := [],
                message := "Failed to get repository content: " ++ e } ∧
    listRepositoryBranchesCatch e =
      .result { success := false, branches := [],
                message := "Failed to list branches: " ++ e } ∧
    updateTaskStatusCatch e =
      .result { success := false,
                message := "Failed to update task status: " ++ e } ∧
    addTaskCommentCatch e =
      .result { success := false,
                message := "Failed to add comment: " ++ e } ∧
    runCodeTestsCatch e =
      .result
        { testResults :=
            { passed := 0, failed := 1, total := 1, coverage := none,
              details := [{ file := "test-runner", status := "failed",
                            message :=
                              some ("Test execution failed: " ++ e) }] },
          status := "failed",
          recommendations :=
            ["Fix test execution issues before proceeding",
             "Check test configuration and dependencies"] } ∧
    readKanbanBoardCatch e = .thrown e ∧
    queryTaskDetailsCatch e = .thrown e ∧
    analyzeCodebaseCatch e = .thrown e ∧
    implementCodeChangesCatch e = .thrown e ∧
    validateCodeQualityCatch e = .thrown e :=
  ⟨rfl, rfl, rfl, rfl, rfl, rfl, rfl, rfl, rfl, rfl, rfl, rfl, rfl⟩

/-- C10 counterexample: the error path of the `validateCodeQuality`
registered to the agent rethrows instead of returning a result with a
score of 0. -/
theorem validateCodeQuality_error_counterexample :
    validateCodeQualityCatch "boom" = ToolOutcome.thrown "boom" := rfl

/-- C10 amended: both variants of `validateCodeQuality` clamp the computed
score into [0, 100] on the success path; on the error path the part_000
variant returns a score of 0 while the variant registered to the agent
rethrows. -/
theorem validateCodeQuality_score_bounds (filePaths : List String)
    (e : String) :
    0 ≤ (validateCodeQuality filePaths).qualityScore ∧
    (validateCodeQuality filePaths).qualityScore ≤ 100 ∧
    0 ≤ (validateCodeQualityAlt filePaths).qualityScore ∧
    (validateCodeQualityAlt filePaths).qualityScore ≤ 100 ∧
    validateCodeQualityCatch e = ToolOutcome.thrown e ∧
    (validateCodeQualityAltOnError e).qualityScore = 0 :=
  ⟨le_max_left 0 _, max_le (by norm_num) (min_le_left _ _),
   le_max_left 0 _, max_le (by norm_num) (min_le_left _ _), rfl, rfl⟩
